import Mathlib

/-!
Verification development for the resumable, integrity-checked batch downloader
in `utils.py` (class `SafeDownloader`, helpers `print_if`, `warn_if`,
`safe_get_request`).

Modelling conventions (shallow embedding):
* The filesystem is a map `FS` from file names to optional byte contents
  (the output directory is fixed, so paths are flattened to names).
* The network is an oracle `Net`: `head` answers a HEAD probe with an optional
  `content-length`; `get` answers a GET, given an optional `Range` byte offset,
  with the response body.  Either call may fail with a connection error.
* Every operation returns the trace of observable events it performed
  (requests issued, file opens with their mode, gated prints) together with
  the resulting filesystem and an optional uncaught error.
* `hashlib.sha256` is an external library; it is modelled by an arbitrary
  function `sha : List Nat → String` applied to the concatenation of all
  bytes fed to `update`, which is exactly the contract hashlib provides.
-/

/-- Modelled from the spec: the message templates and the `VERBOSE` threshold
table live in the repository's `definitions.py`, which is not part of the
source seen here (`utils.py` does `from definitions import *`).  The tags
mirror the spec's report names: "download started", "already downloaded",
"incomplete, resuming", no-hash, corruption warning, validation success. -/
inductive Msg : Type where
  | downloadStart (file : String)
  | downloadComplete (file : String)
  | downloadIncomplete (file : String)
  | noHash (file : String)
  | corruption (file : String)
  | validation (file : String)
deriving DecidableEq, Repr

/-- Modelled from the spec: the `VERBOSE` dictionary of `definitions.py`,
a leveled print/warn gate ("messages are only emitted when a configured
verbosity meets or exceeds each message's threshold level"). -/
structure Verbose : Type where
  program_warning : Int
  program_progress : Int
  thread_warnings : Int
  raw_warnings : Int
deriving DecidableEq, Repr

/-- File-open modes used by the downloader: `wb` truncating write,
`ab` append, `rb` read. -/
inductive Mode : Type where
  | wb
  | ab
  | rb
deriving DecidableEq, Repr

/-- Observable events of a run: HEAD probes, GET requests (with the optional
`Range` offset requested), file opens, and prints that passed the verbosity
gate. -/
inductive Ev : Type where
  | headReq (url : String)
  | getReq (url : String) (range : Option Nat)
  | openFile (file : String) (mode : Mode)
  | print (msg : Msg)
deriving DecidableEq, Repr

/-- Uncaught Python exceptions relevant to this core. -/
inductive Err : Type where
  | connectionError
  | fileNotFoundError
deriving DecidableEq, Repr

/-- Answer to a HEAD probe: `contentLength = none` models a server that
omits the `content-length` header (`r.headers.get('content-length', 0)`). -/
structure Response : Type where
  contentLength : Option Nat
deriving DecidableEq, Repr

/-- Network oracle.  `get url range` is the body the server returns for a GET
on `url` with `Range: bytes=range-` when `range` is present and no `Range`
header otherwise. -/
structure Net : Type where
  head : String → Except Err Response
  get : String → Option Nat → Except Err (List Nat)

/-- The filesystem: file name to optional contents (bytes as `Nat`s). -/
abbrev FS : Type := String → Option (List Nat)

/-- Write `data` to file `name` (creating or replacing it). -/
def setFile (fs : FS) (name : String) (data : List Nat) : FS :=
  fun m => if m = name then some data else fs m

/-- The constructor state of `SafeDownloader` (`outfile` is flattened away,
`url_hashes` is the hash list — the claims under study pass a list). -/
structure SafeDownloader : Type where
  urls : List String
  file_names : List String
  url_hashes : List String
  block_size : Nat
  verbose_level : Int
deriving DecidableEq, Repr

/-- `print_if(verbose, thr, text)`: print `text` if `verbose >= thr`.
The model returns the print events actually emitted. -/
def print_if (verbose thr : Int) (text : Msg) : List Ev :=
  if verbose ≥ thr then [Ev.print text] else []

/-- `warn_if(verbose, thr, text)`: `warnings.warn(text)` if `verbose >= thr`.
The model returns the warnings actually emitted. -/
def warn_if (verbose thr : Int) (text : String) : List String :=
  if verbose ≥ thr then [text] else []

/-- Outcome of the raw `session.get` inside `safe_get_request`: either a
response or a `requests.exceptions.ConnectionError` carrying its message. -/
inductive GetOutcome (ρ : Type) : Type where
  | ok (r : ρ)
  | connError (e : String)
deriving DecidableEq, Repr

/-- `safe_get_request` (utils.py lines 68-89): try the GET; on
`ConnectionError` emit `warn_if`-gated warnings and return the caller's
`return_on_failure` sentinel; otherwise return the response unchanged.
The first component is `Sum.inl r` for a returned response and
`Sum.inr return_on_failure` for the sentinel; the second component is the
list of warnings emitted. -/
def safe_get_request {ρ α : Type} (get_result : GetOutcome ρ) (verbose_level : Int)
    (warning_msg : String) (return_on_failure : α) (warning_thr raw_err_thr : Int) :
    (ρ ⊕ α) × List String :=
  match get_result with
  | GetOutcome.ok r => (Sum.inl r, [])
  | GetOutcome.connError e =>
      (Sum.inr return_on_failure,
       warn_if verbose_level warning_thr warning_msg ++ warn_if verbose_level raw_err_thr e)

/-- Python truthiness of `resume_byte_pos : Option Nat`: `None` and `0` are
falsy (this mirrors `if resume_byte_pos` on lines 239-247 of utils.py). -/
def truthyNat : Option Nat → Bool
  | some n => n != 0
  | none => false

/-- `SafeDownloader.downloader` (utils.py lines 221-257): probe the url with
HEAD (the size feeds only the progress bar), build the `Range` header and the
open mode from the truthiness of `resume_byte_pos`, GET the body streaming it
into the file.  Append mode extends the existing contents; write mode replaces
them.  A connection error in either request propagates uncaught. -/
def downloader (_V : Verbose) (sd : SafeDownloader) (net : Net) (fs : FS)
    (position : Nat) (resume_byte_pos : Option Nat) : List Ev × FS × Option Err :=
  let url := sd.urls.getD position ""
  match net.head url with
  | Except.error e => ([Ev.headReq url], fs, some e)
  | Except.ok _r =>
    let resume_header : Option Nat := if truthyNat resume_byte_pos then resume_byte_pos else none
    match net.get url resume_header with
    | Except.error e => ([Ev.headReq url, Ev.getReq url resume_header], fs, some e)
    | Except.ok body =>
      let mode := if truthyNat resume_byte_pos then Mode.ab else Mode.wb
      let file := sd.file_names.getD position ""
      let newData := if truthyNat resume_byte_pos then ((fs file).getD []) ++ body else body
      ([Ev.headReq url, Ev.getReq url resume_header, Ev.openFile file mode],
       setFile fs file newData, none)

/-- `SafeDownloader.download_file` (utils.py lines 259-290): HEAD-probe the
remote size; if the destination exists compare sizes — equal means skip with
the already-downloaded message, different means print the incomplete message
and resume from the local size; if it does not exist print the start message
and fetch from scratch. -/
def download_file (V : Verbose) (sd : SafeDownloader) (net : Net) (fs : FS)
    (position : Nat) : List Ev × FS × Option Err :=
  let url := sd.urls.getD position ""
  match net.head url with
  | Except.error e => ([Ev.headReq url], fs, some e)
  | Except.ok r =>
    let file_size_online := r.contentLength.getD 0
    let file := sd.file_names.getD position ""
    match fs file with
    | some data =>
      let file_size_offline := data.length
      if file_size_online ≠ file_size_offline then
        let pr := print_if sd.verbose_level V.program_warning (Msg.downloadIncomplete file)
        let res := downloader V sd net fs position (some file_size_offline)
        (Ev.headReq url :: (pr ++ res.1), res.2.1, res.2.2)
      else
        (Ev.headReq url :: print_if sd.verbose_level V.program_progress (Msg.downloadComplete file),
         fs, none)
    | none =>
      let pr := print_if sd.verbose_level V.program_progress (Msg.downloadStart file)
      let res := downloader V sd net fs position none
      (Ev.headReq url :: (pr ++ res.1), res.2.1, res.2.2)

/-- The sequential loop of `SafeDownloader.download` over a list of positions.
An uncaught exception from `download_file` propagates, ending the loop. -/
def downloadLoop (V : Verbose) (sd : SafeDownloader) (net : Net) (fs : FS) :
    List Nat → List Ev × FS × Option Err
  | [] => ([], fs, none)
  | position :: rest =>
    let res := download_file V sd net fs position
    match res.2.2 with
    | some e => (res.1, res.2.1, some e)
    | none =>
      let r2 := downloadLoop V sd net res.2.1 rest
      (res.1 ++ r2.1, r2.2.1, r2.2.2)

/-- `SafeDownloader.download` (utils.py lines 342-345): `download_file` for
each position in `range(len(self.urls))`. -/
def download (V : Verbose) (sd : SafeDownloader) (net : Net) (fs : FS) :
    List Ev × FS × Option Err :=
  downloadLoop V sd net fs (List.range sd.urls.length)

/-- Chunk size of the streaming hash loop: `f.read(1000 * 1000)`. -/
def CHUNK : Nat := 1000 * 1000

/-- The successive results of `f.read(CHUNK)` on a file with the given
contents: maximal chunks of `CHUNK` bytes until the read comes back empty. -/
def readChunks : List Nat → List (List Nat)
  | [] => []
  | x :: xs => ((x :: xs).take CHUNK) :: readChunks ((x :: xs).drop CHUNK)
termination_by l => l.length
decreasing_by
  simp only [CHUNK, List.length_drop, List.length_cons]
  omega

/-- Digest of the streaming loop (utils.py lines 311-317): `sha.update` is fed
each chunk in turn, and hashlib's digest is the hash of the concatenation of
everything fed to `update`. -/
def streamDigest (sha : List Nat → String) (contents : List Nat) : String :=
  sha (List.flatten (readChunks contents))

/-- Outcome tags of validation, as the spec's `ValidationResult`:
which of the three report branches of `validate_file` ran. -/
inductive ValidationResult : Type where
  | Validated
  | HashMismatch
  | NoHashAvailable
deriving DecidableEq, Repr

/-- `SafeDownloader.validate_file` (utils.py lines 292-324): look up the hash
by position (an `IndexError` — the index being out of range of the hash
list — is caught and reported as the no-hash message); open the file for
reading (a missing file raises an uncaught `FileNotFoundError`); hash it in
1 MB chunks; compare the hex digest with the expected hash and report
validation success or the corruption warning.  The filesystem is returned
unchanged: the only file operation is the `rb` open and reads. -/
def validate_file (V : Verbose) (sd : SafeDownloader) (fs : FS)
    (sha : List Nat → String) (position : Nat) : List Ev × FS × Except Err ValidationResult :=
  let file := sd.file_names.getD position ""
  match sd.url_hashes[position]? with
  | none =>
      (print_if sd.verbose_level V.program_warning (Msg.noHash file), fs,
       Except.ok ValidationResult.NoHashAvailable)
  | some hash =>
    match fs file with
    | none => ([], fs, Except.error Err.fileNotFoundError)
    | some data =>
      let digest := streamDigest sha data
      if digest = hash then
        (Ev.openFile file Mode.rb ::
           print_if sd.verbose_level V.program_progress (Msg.validation file), fs,
         Except.ok ValidationResult.Validated)
      else
        (Ev.openFile file Mode.rb ::
           print_if sd.verbose_level V.program_warning (Msg.corruption file), fs,
         Except.ok ValidationResult.HashMismatch)

/-- The sequential loop of `SafeDownloader.validate` over a list of positions.
An uncaught exception from `validate_file` propagates, ending the loop. -/
def validateLoop (V : Verbose) (sd : SafeDownloader) (fs : FS)
    (sha : List Nat → String) : List Nat → List Ev × FS × Option Err
  | [] => ([], fs, none)
  | position :: rest =>
    let res := validate_file V sd fs sha position
    match res.2.2 with
    | Except.error e => (res.1, res.2.1, some e)
    | Except.ok _ =>
      let r2 := validateLoop V sd res.2.1 sha rest
      (res.1 ++ r2.1, r2.2.1, r2.2.2)

/-- `SafeDownloader.validate` (utils.py lines 347-350): `validate_file` for
each position in `range(len(self.urls))`. -/
def validate (V : Verbose) (sd : SafeDownloader) (fs : FS)
    (sha : List Nat → String) : List Ev × FS × Option Err :=
  validateLoop V sd fs sha (List.range sd.urls.length)

/-- Follows the spec's words for claim C7 ("download() visits every index in
[0, len(urls)) strictly in order, and a failure while processing one item
does not abort the batch"): the unconditional in-order visit of every listed
index, ignoring per-item errors. -/
def downloadAllItems (V : Verbose) (sd : SafeDownloader) (net : Net) (fs : FS) :
    List Nat → List Ev × FS
  | [] => ([], fs)
  | position :: rest =>
    let res := download_file V sd net fs position
    let r2 := downloadAllItems V sd net res.2.1 rest
    (res.1 ++ r2.1, r2.2)

/-! Concrete configurations used by counterexamples and witnesses. -/

/-- Verbosity thresholds at which every program message is emitted for a
downloader constructed with the default `verbose_level=1`. -/
def V1 : Verbose := ⟨1, 1, 2, 3⟩

/-- One item, no hashes. -/
def sdA : SafeDownloader := ⟨["u"], ["f"], [], 1024, 1⟩

/-- Server advertising 5 bytes and returning `[1,2,3,4,5]` to any GET. -/
def netA : Net := ⟨fun _ => Except.ok ⟨some 5⟩, fun _ _ => Except.ok [1, 2, 3, 4, 5]⟩

/-- A zero-byte local file `f`. -/
def fsA : FS := fun n => if n = "f" then some [] else none

/-- A two-byte local file `f`. -/
def fsD : FS := fun n => if n = "f" then some [9, 9] else none

/-- Server advertising 5 bytes, answering a ranged GET from offset 2 with the
tail `[3,4,5]` and a full GET with the whole body. -/
def netD : Net :=
  ⟨fun _ => Except.ok ⟨some 5⟩,
   fun _ r => if r = some 2 then Except.ok [3, 4, 5] else Except.ok [1, 2, 3, 4, 5]⟩

/-- A local file `f` holding exactly the remote's two bytes. -/
def fsC : FS := fun n => if n = "f" then some [5, 6] else none

/-- Server advertising 2 bytes and returning `[5,6]`. -/
def netC : Net := ⟨fun _ => Except.ok ⟨some 2⟩, fun _ _ => Except.ok [5, 6]⟩

/-- Empty filesystem. -/
def fsEmpty : FS := fun _ => none

/-- Two items, used to show a failing first item aborts the batch. -/
def sdB : SafeDownloader := ⟨["a", "b"], ["fa", "fb"], [], 1024, 1⟩

/-- Server on which url `a` raises a connection error and url `b` works. -/
def netB : Net :=
  ⟨fun u => if u = "a" then Except.error Err.connectionError else Except.ok ⟨some 1⟩,
   fun _ _ => Except.ok [7]⟩

/-- One item with expected hash `h`. -/
def sdH : SafeDownloader := ⟨["u"], ["f"], ["h"], 1024, 1⟩

/-- A hash oracle for witnesses: `[5,6]` hashes to `h`, everything else to `x`. -/
def shaW : List Nat → String := fun l => if l = [5, 6] then "h" else "x"

/-- A one-byte local file `f`, hashing to `x` under `shaW`. -/
def fsM : FS := fun n => if n = "f" then some [1] else none

/-- A filesystem agreeing with `fsC` on `f` but holding an extra file `g`. -/
def fsC2 : FS := fun n => if n = "g" then some [7] else fsC n

/-! Helper lemmas. -/

/-- Concatenating the 1 MB read chunks recovers the file contents. -/
theorem flatten_readChunks (l : List Nat) : (readChunks l).flatten = l := by
  induction l using readChunks.induct with
  | case1 => simp [readChunks]
  | case2 x xs ih =>
      rw [readChunks, List.flatten_cons, ih, List.take_append_drop]

/-- `validate_file` returns the filesystem unchanged: its only file operation
is the read-only open. -/
theorem validate_file_fs_eq (V : Verbose) (sd : SafeDownloader) (fs : FS)
    (sha : List Nat → String) (position : Nat) :
    (validate_file V sd fs sha position).2.1 = fs := by
  simp only [validate_file]
  cases hh : sd.url_hashes[position]? with
  | none => rfl
  | some hash =>
    cases hf : fs (sd.file_names.getD position "") with
    | none => rfl
    | some data =>
      by_cases hd : streamDigest sha data = hash <;> simp [hd]

/-- The events and the result of `validate_file` depend only on the contents
of the item's destination file. -/
theorem validate_file_congr (V : Verbose) (sd : SafeDownloader) (fs fs' : FS)
    (sha : List Nat → String) (position : Nat)
    (h : fs (sd.file_names.getD position "") = fs' (sd.file_names.getD position "")) :
    (validate_file V sd fs sha position).1 = (validate_file V sd fs' sha position).1 ∧
    (validate_file V sd fs sha position).2.2 = (validate_file V sd fs' sha position).2.2 := by
  simp only [validate_file]
  rw [h]
  cases hh : sd.url_hashes[position]? with
  | none => exact ⟨rfl, rfl⟩
  | some hash =>
    cases hf : fs' (sd.file_names.getD position "") with
    | none => exact ⟨rfl, rfl⟩
    | some data =>
      by_cases hd : streamDigest sha data = hash <;> simp [hd]

/-- Writing one file leaves every existing file existing. -/
theorem setFile_preserves (fs : FS) (name : String) (data : List Nat) (n : String)
    (h : (fs n).isSome) : ((setFile fs name data) n).isSome := by
  unfold setFile
  split
  · rfl
  · exact h

/-- `downloader` never deletes a file. -/
theorem downloader_preserves (V : Verbose) (sd : SafeDownloader) (net : Net) (fs : FS)
    (position : Nat) (rp : Option Nat) (n : String) (h : (fs n).isSome) :
    (((downloader V sd net fs position rp).2.1) n).isSome := by
  simp only [downloader]
  cases hh : net.head (sd.urls.getD position "") with
  | error e => simpa using h
  | ok r =>
    cases hg : net.get (sd.urls.getD position "") (if truthyNat rp then rp else none) with
    | error e => simpa using h
    | ok body => simpa using setFile_preserves fs _ _ n h

/-- `download_file` never deletes a file. -/
theorem download_file_preserves (V : Verbose) (sd : SafeDownloader) (net : Net) (fs : FS)
    (position : Nat) (n : String) (h : (fs n).isSome) :
    (((download_file V sd net fs position).2.1) n).isSome := by
  simp only [download_file]
  cases hh : net.head (sd.urls.getD position "") with
  | error e => simpa using h
  | ok r =>
    cases hf : fs (sd.file_names.getD position "") with
    | none => simpa using downloader_preserves V sd net fs position none n h
    | some data =>
      by_cases hc : r.contentLength.getD 0 ≠ data.length
      · simpa [hc] using downloader_preserves V sd net fs position (some data.length) n h
      · simpa [hc] using h

/-- The `download` loop never deletes a file. -/
theorem downloadLoop_preserves (V : Verbose) (sd : SafeDownloader) (net : Net) :
    ∀ (is : List Nat) (fs : FS) (n : String), (fs n).isSome →
      (((downloadLoop V sd net fs is).2.1) n).isSome
  | [], fs, n, h => h
  | i :: rest, fs, n, h => by
    have h1 := download_file_preserves V sd net fs i n h
    cases hstep : (download_file V sd net fs i).2.2 with
    | some e => simpa [downloadLoop, hstep] using h1
    | none =>
      have h2 := downloadLoop_preserves V sd net rest (download_file V sd net fs i).2.1 n h1
      simpa [downloadLoop, hstep] using h2

/-- The `validate` loop returns the filesystem unchanged. -/
theorem validateLoop_fs_eq (V : Verbose) (sd : SafeDownloader) (sha : List Nat → String) :
    ∀ (is : List Nat) (fs : FS), (validateLoop V sd fs sha is).2.1 = fs
  | [], fs => rfl
  | i :: rest, fs => by
    have h1 := validate_file_fs_eq V sd fs sha i
    cases hstep : (validate_file V sd fs sha i).2.2 with
    | error e => simpa [validateLoop, hstep] using h1
    | ok v =>
      simp only [validateLoop, hstep]
      rw [h1]
      exact validateLoop_fs_eq V sd sha rest fs

/-- On a batch whose every listed item already has a local file of exactly the
remote size, the download loop emits only HEAD probes and already-downloaded
messages and leaves the filesystem untouched. -/
theorem downloadLoop_skip (V : Verbose) (sd : SafeDownloader) (net : Net) (fs : FS) :
    ∀ is : List Nat,
      (∀ i ∈ is, ∃ (cl : Option Nat) (data : List Nat),
          net.head (sd.urls.getD i "") = Except.ok ⟨cl⟩ ∧
          fs (sd.file_names.getD i "") = some data ∧ cl.getD 0 = data.length) →
      downloadLoop V sd net fs is =
        ((is.map fun i => Ev.headReq (sd.urls.getD i "") ::
            print_if sd.verbose_level V.program_progress
              (Msg.downloadComplete (sd.file_names.getD i ""))).flatten, fs, none)
  | [], _ => by simp [downloadLoop]
  | i :: rest, h => by
    obtain ⟨cl, data, hh, hf, he⟩ := h i (List.mem_cons_self i rest)
    have hstep : download_file V sd net fs i =
        (Ev.headReq (sd.urls.getD i "") ::
          print_if sd.verbose_level V.program_progress
            (Msg.downloadComplete (sd.file_names.getD i "")), fs, none) := by
      simp only [download_file, hh, hf, he]
      simp
    have ih := downloadLoop_skip V sd net fs rest (fun j hj => h j (List.mem_cons_of_mem _ hj))
    simp [downloadLoop, hstep, ih]

/-- An error-free run of the download loop coincides with the unconditional
in-order visit `downloadAllItems` of the same positions. -/
theorem downloadLoop_eq_all (V : Verbose) (sd : SafeDownloader) (net : Net) :
    ∀ (is : List Nat) (fs : FS),
      (downloadLoop V sd net fs is).2.2 = none →
      ((downloadLoop V sd net fs is).1, (downloadLoop V sd net fs is).2.1) =
        downloadAllItems V sd net fs is
  | [], fs, _ => by simp [downloadLoop, downloadAllItems]
  | i :: rest, fs, h => by
    cases hstep : (download_file V sd net fs i).2.2 with
    | some e =>
        exfalso
        simp [downloadLoop, hstep] at h
    | none =>
        have h' : (downloadLoop V sd net (download_file V sd net fs i).2.1 rest).2.2 = none := by
          simpa [downloadLoop, hstep] using h
        have ih := downloadLoop_eq_all V sd net rest (download_file V sd net fs i).2.1 h'
        simp only [downloadLoop, hstep, downloadAllItems]
        simp only [Prod.ext_iff] at ih ⊢
        exact ⟨by simp [ih.1], by simp [ih.2]⟩

/-! Claim theorems. -/

/-- C1 (counterexample): with a zero-byte local file `f` and a remote of
5 bytes, `download_file` does print the incomplete-resuming message and passes
resume_offset = 0 = L, but — because `0` is falsy in Python — the fetch opens
the destination in truncating-write mode and issues the GET with no `Range`
header, contradicting the claim's "append mode, range request `bytes=L-`"
for every `L != R`. -/
theorem download_file_zero_offset_counterexample :
    Ev.print (Msg.downloadIncomplete "f") ∈ (download_file V1 sdA netA fsA 0).1 ∧
    Ev.openFile "f" Mode.wb ∈ (download_file V1 sdA netA fsA 0).1 ∧
    Ev.openFile "f" Mode.ab ∉ (download_file V1 sdA netA fsA 0).1 ∧
    Ev.getReq "u" none ∈ (download_file V1 sdA netA fsA 0).1 ∧
    Ev.getReq "u" (some 0) ∉ (download_file V1 sdA netA fsA 0).1 := by
  decide

/-- C1 (amended): for every item whose destination file exists with a
positive local size `L` different from the probed remote size, and whose
requests succeed, `download_file` reports the incomplete-resuming message and
fetches with resume_offset = L, opening the destination in append mode and
issuing the content request with a `Range` header from byte L onward, so that
the file ends as the old contents extended by the response body. -/
theorem download_file_resume_append_range (V : Verbose) (sd : SafeDownloader) (net : Net)
    (fs : FS) (position : Nat) (cl : Option Nat) (data body : List Nat)
    (hhead : net.head (sd.urls.getD position "") = Except.ok ⟨cl⟩)
    (hfile : fs (sd.file_names.getD position "") = some data)
    (hne : cl.getD 0 ≠ data.length)
    (hpos : 0 < data.length)
    (hget : net.get (sd.urls.getD position "") (some data.length) = Except.ok body)
    (hv : V.program_warning ≤ sd.verbose_level) :
    (download_file V sd net fs position).1 =
      [Ev.headReq (sd.urls.getD position ""),
       Ev.print (Msg.downloadIncomplete (sd.file_names.getD position "")),
       Ev.headReq (sd.urls.getD position ""),
       Ev.getReq (sd.urls.getD position "") (some data.length),
       Ev.openFile (sd.file_names.getD position "") Mode.ab] ∧
    (download_file V sd net fs position).2.1 (sd.file_names.getD position "") =
      some (data ++ body) ∧
    (download_file V sd net fs position).2.2 = none := by
  have hnz : data.length ≠ 0 := Nat.pos_iff_ne_zero.mp hpos
  have htr : truthyNat (some data.length) = true := by simp [truthyNat, hnz]
  have hget' : net.get (sd.urls[position]?.getD "") (some data.length) = Except.ok body := by
    simpa using hget
  simp only [download_file, downloader, hhead, hfile, hne, htr, if_true, if_pos,
    print_if]
  simp [hne, hget', hfile, ge_iff_le, hv, setFile]

/-- C1 (witness): the amended resume behaviour at a concrete input — a
two-byte local file against a five-byte remote resumes in append mode with a
`Range` request from byte 2. -/
theorem download_file_resume_append_range_witness :
    (download_file V1 sdA netD fsD 0).1 =
      [Ev.headReq "u", Ev.print (Msg.downloadIncomplete "f"), Ev.headReq "u",
       Ev.getReq "u" (some 2), Ev.openFile "f" Mode.ab] ∧
    (download_file V1 sdA netD fsD 0).2.1 "f" = some [9, 9, 3, 4, 5] ∧
    (download_file V1 sdA netD fsD 0).2.2 = none := by
  have h := download_file_resume_append_range V1 sdA netD fsD 0 (some 5) [9, 9] [3, 4, 5]
    rfl rfl (by decide) (by decide) rfl (by decide)
  simpa [sdA] using h

/-- C2: for a batch whose every item has a destination file of exactly the
probed remote size, `download` performs only the HEAD probe and the
already-downloaded message per item — no GET, no file open — leaves the
filesystem unchanged, and calling `download` again returns the identical
result. -/
theorem download_skip_idempotent (V : Verbose) (sd : SafeDownloader) (net : Net) (fs : FS)
    (h : ∀ i < sd.urls.length, ∃ (cl : Option Nat) (data : List Nat),
        net.head (sd.urls.getD i "") = Except.ok ⟨cl⟩ ∧
        fs (sd.file_names.getD i "") = some data ∧ cl.getD 0 = data.length) :
    download V sd net fs =
      (((List.range sd.urls.length).map fun i => Ev.headReq (sd.urls.getD i "") ::
          print_if sd.verbose_level V.program_progress
            (Msg.downloadComplete (sd.file_names.getD i ""))).flatten, fs, none) ∧
    (∀ u r, Ev.getReq u r ∉ (download V sd net fs).1) ∧
    download V sd net ((download V sd net fs).2.1) = download V sd net fs := by
  have h' : ∀ i ∈ List.range sd.urls.length, ∃ (cl : Option Nat) (data : List Nat),
      net.head (sd.urls.getD i "") = Except.ok ⟨cl⟩ ∧
      fs (sd.file_names.getD i "") = some data ∧ cl.getD 0 = data.length :=
    fun i hi => h i (List.mem_range.mp hi)
  have hd : download V sd net fs =
      (((List.range sd.urls.length).map fun i => Ev.headReq (sd.urls.getD i "") ::
          print_if sd.verbose_level V.program_progress
            (Msg.downloadComplete (sd.file_names.getD i ""))).flatten, fs, none) :=
    downloadLoop_skip V sd net fs (List.range sd.urls.length) h'
  refine ⟨hd, ?_, ?_⟩
  · intro u r hmem
    rw [hd] at hmem
    simp only [List.mem_flatten, List.mem_map] at hmem
    obtain ⟨l, ⟨i, hi, rfl⟩, hl⟩ := hmem
    rcases List.mem_cons.mp hl with h0 | h0
    · simp at h0
    · simp only [print_if] at h0
      revert h0
      split <;> simp
  · have h21 : (download V sd net fs).2.1 = fs := by rw [hd]
    rw [h21]

/-- C2 (witness): one item whose two-byte file matches the advertised
two-byte remote — the run is a HEAD probe plus the skip message, the
filesystem is untouched, no GET is issued, and a second `download` is
identical. -/
theorem download_skip_idempotent_witness :
    (download V1 sdA netC fsC).2.1 = fsC ∧
    (download V1 sdA netC fsC).2.2 = none ∧
    Ev.getReq "u" none ∉ (download V1 sdA netC fsC).1 ∧
    download V1 sdA netC ((download V1 sdA netC fsC).2.1) = download V1 sdA netC fsC := by
  have hyp : ∀ i < sdA.urls.length, ∃ (cl : Option Nat) (data : List Nat),
      netC.head (sdA.urls.getD i "") = Except.ok ⟨cl⟩ ∧
      fsC (sdA.file_names.getD i "") = some data ∧ cl.getD 0 = data.length := by
    intro i hi
    have hi0 : i = 0 := by
      have h1 : i < 1 := by simpa [sdA] using hi
      omega
    subst hi0
    exact ⟨some 2, [5, 6], rfl, rfl, rfl⟩
  have h := download_skip_idempotent V1 sdA netC fsC hyp
  exact ⟨by rw [h.1], by rw [h.1], h.2.1 "u" none, h.2.2⟩

/-- C3: for an item whose destination file does not exist, `download_file`
reports the download-started message and fetches from scratch: the GET
carries no `Range` header, the destination is opened in truncating-write
mode, and it ends holding exactly the response body. -/
theorem download_file_fresh_truncating_no_range (V : Verbose) (sd : SafeDownloader)
    (net : Net) (fs : FS) (position : Nat) (cl : Option Nat) (body : List Nat)
    (hfile : fs (sd.file_names.getD position "") = none)
    (hhead : net.head (sd.urls.getD position "") = Except.ok ⟨cl⟩)
    (hget : net.get (sd.urls.getD position "") none = Except.ok body)
    (hv : V.program_progress ≤ sd.verbose_level) :
    (download_file V sd net fs position).1 =
      [Ev.headReq (sd.urls.getD position ""),
       Ev.print (Msg.downloadStart (sd.file_names.getD position "")),
       Ev.headReq (sd.urls.getD position ""),
       Ev.getReq (sd.urls.getD position "") none,
       Ev.openFile (sd.file_names.getD position "") Mode.wb] ∧
    (download_file V sd net fs position).2.1 (sd.file_names.getD position "") = some body ∧
    (download_file V sd net fs position).2.2 = none := by
  have hget' : net.get (sd.urls[position]?.getD "") none = Except.ok body := by
    simpa using hget
  simp only [download_file, downloader, hhead, hfile, print_if, truthyNat]
  simp [hget', ge_iff_le, hv, setFile]

/-- C3 (witness): downloading item 0 of `sdA` onto an empty filesystem issues
the full-content GET and writes the whole body. -/
theorem download_file_fresh_truncating_no_range_witness :
    (download_file V1 sdA netA fsEmpty 0).1 =
      [Ev.headReq "u", Ev.print (Msg.downloadStart "f"), Ev.headReq "u",
       Ev.getReq "u" none, Ev.openFile "f" Mode.wb] ∧
    (download_file V1 sdA netA fsEmpty 0).2.1 "f" = some [1, 2, 3, 4, 5] ∧
    (download_file V1 sdA netA fsEmpty 0).2.2 = none := by
  have h := download_file_fresh_truncating_no_range V1 sdA netA fsEmpty 0 (some 5)
    [1, 2, 3, 4, 5] rfl rfl rfl (by decide)
  simpa [sdA] using h

/-- C4: when the item's index is out of range of the hash list,
`validate_file` never raises: it prints the no-hash message and returns
normally with `NoHashAvailable`, leaving the filesystem untouched. -/
theorem validate_file_missing_hash_no_raise (V : Verbose) (sd : SafeDownloader) (fs : FS)
    (sha : List Nat → String) (position : Nat)
    (h : sd.url_hashes.length ≤ position)
    (hv : V.program_warning ≤ sd.verbose_level) :
    validate_file V sd fs sha position =
      ([Ev.print (Msg.noHash (sd.file_names.getD position ""))], fs,
       Except.ok ValidationResult.NoHashAvailable) := by
  have h0 : sd.url_hashes[position]? = none := List.getElem?_eq_none h
  simp only [validate_file, h0, print_if]
  simp [ge_iff_le, hv]

/-- C4 (witness): validating the only item of `sdA`, whose hash list is
empty, reports no-hash and returns `NoHashAvailable`. -/
theorem validate_file_missing_hash_no_raise_witness :
    validate_file V1 sdA fsC shaW 0 =
      ([Ev.print (Msg.noHash "f")], fsC, Except.ok ValidationResult.NoHashAvailable) := by
  have h := validate_file_missing_hash_no_raise V1 sdA fsC shaW 0 (by decide) (by decide)
  simpa [sdA] using h

/-- C5: the SHA-256 digest computed by the streaming loop in 1 MB reads
equals the digest of the whole contents in one shot, and the events and
result of `validate_file` depend only on the destination file's contents, so
validating an unchanged file always produces the same `ValidationResult`. -/
theorem streaming_hash_eq_one_shot (sha : List Nat → String) (contents : List Nat) :
    streamDigest sha contents = sha contents ∧
    ∀ (V : Verbose) (sd : SafeDownloader) (fs fs' : FS) (position : Nat),
      fs (sd.file_names.getD position "") = fs' (sd.file_names.getD position "") →
      (validate_file V sd fs sha position).1 = (validate_file V sd fs' sha position).1 ∧
      (validate_file V sd fs sha position).2.2 = (validate_file V sd fs' sha position).2.2 := by
  refine ⟨?_, ?_⟩
  · unfold streamDigest
    rw [flatten_readChunks]
  · intro V sd fs fs' position h
    exact validate_file_congr V sd fs fs' sha position h

/-- C5 (witness): the streaming digest of `[5,6]` equals its one-shot digest,
and validating against a filesystem that differs only in an unrelated file
gives the same result. -/
theorem streaming_hash_eq_one_shot_witness :
    streamDigest shaW [5, 6] = shaW [5, 6] ∧
    (validate_file V1 sdH fsC shaW 0).2.2 = (validate_file V1 sdH fsC2 shaW 0).2.2 := by
  refine ⟨(streaming_hash_eq_one_shot shaW [5, 6]).1, ?_⟩
  exact ((streaming_hash_eq_one_shot shaW [5, 6]).2 V1 sdH fsC fsC2 0 (by decide)).2

/-- C6: with the expected hash present and the destination file on disk,
`validate_file` returns `Validated` exactly when the computed digest equals
the expected hash; on inequality it returns `HashMismatch` without raising,
prints the corruption warning, and in every case leaves the filesystem
untouched. -/
theorem validate_file_hash_compare (V : Verbose) (sd : SafeDownloader) (fs : FS)
    (sha : List Nat → String) (position : Nat) (hash : String) (data : List Nat)
    (hhash : sd.url_hashes[position]? = some hash)
    (hfile : fs (sd.file_names.getD position "") = some data)
    (hw : V.program_warning ≤ sd.verbose_level)
    (hp : V.program_progress ≤ sd.verbose_level) :
    ((validate_file V sd fs sha position).2.2 = Except.ok ValidationResult.Validated ↔
      sha data = hash) ∧
    (sha data = hash →
      (validate_file V sd fs sha position).1 =
        [Ev.openFile (sd.file_names.getD position "") Mode.rb,
         Ev.print (Msg.validation (sd.file_names.getD position ""))]) ∧
    (sha data ≠ hash →
      (validate_file V sd fs sha position).2.2 = Except.ok ValidationResult.HashMismatch ∧
      (validate_file V sd fs sha position).1 =
        [Ev.openFile (sd.file_names.getD position "") Mode.rb,
         Ev.print (Msg.corruption (sd.file_names.getD position ""))]) ∧
    (validate_file V sd fs sha position).2.1 = fs := by
  have hsd : streamDigest sha data = sha data := by
    unfold streamDigest
    rw [flatten_readChunks]
  simp only [validate_file, hhash, hfile, hsd, print_if]
  by_cases hd : sha data = hash
  · simp [hd, ge_iff_le, hp]
  · simp [hd, ge_iff_le, hw]

/-- C6 (witness): the one-byte file `f` hashes to `x` under `shaW`, not the
expected `h`, so validation reports the mismatch, does not validate, and
leaves the filesystem as it was. -/
theorem validate_file_hash_compare_witness :
    (validate_file V1 sdH fsM shaW 0).2.2 = Except.ok ValidationResult.HashMismatch ∧
    (validate_file V1 sdH fsM shaW 0).2.1 = fsM ∧
    ¬(validate_file V1 sdH fsM shaW 0).2.2 = Except.ok ValidationResult.Validated := by
  have h := validate_file_hash_compare V1 sdH fsM shaW 0 "h" [1] rfl rfl (by decide) (by decide)
  refine ⟨(h.2.2.1 (by decide)).1, h.2.2.2, ?_⟩
  intro hc
  exact absurd (h.1.mp hc) (by decide)

/-- C7 (counterexample): on a two-item batch whose first url fails with a
connection error, `download` propagates the error uncaught — the loop aborts
and the second item is never probed, contradicting the claim that one item's
failure does not halt iteration (the download path issues raw requests, not
`safe_get_request`). -/
theorem download_abort_counterexample :
    (download V1 sdB netB fsEmpty).2.2 = some Err.connectionError ∧
    Ev.headReq "b" ∉ (download V1 sdB netB fsEmpty).1 := by
  decide

/-- C7 (amended): `download` visits the indices `[0, len(urls))` strictly in
order, but a failure while processing one item aborts the batch; when no
uncaught error occurs the run coincides with the unconditional in-order visit
of every index. -/
theorem download_visits_in_order_unless_error (V : Verbose) (sd : SafeDownloader)
    (net : Net) (fs : FS) (h : (download V sd net fs).2.2 = none) :
    ((download V sd net fs).1, (download V sd net fs).2.1) =
      downloadAllItems V sd net fs (List.range sd.urls.length) :=
  downloadLoop_eq_all V sd net (List.range sd.urls.length) fs h

/-- C7 (witness): an error-free single-item batch equals the in-order visit
of all its indices. -/
theorem download_visits_in_order_unless_error_witness :
    ((download V1 sdA netC fsC).1, (download V1 sdA netC fsC).2.1) =
      downloadAllItems V1 sdA netC fsC (List.range sdA.urls.length) :=
  download_visits_in_order_unless_error V1 sdA netC fsC (by decide)

/-- C8: no operation of the downloader core deletes a destination file — any
file present before `downloader`, `download_file`, `download`,
`validate_file` or `validate` is still present afterwards. -/
theorem downloader_core_never_deletes (V : Verbose) (sd : SafeDownloader) (net : Net)
    (fs : FS) (sha : List Nat → String) :
    (∀ position rp n, (fs n).isSome → (((downloader V sd net fs position rp).2.1) n).isSome) ∧
    (∀ position n, (fs n).isSome → (((download_file V sd net fs position).2.1) n).isSome) ∧
    (∀ n, (fs n).isSome → (((download V sd net fs).2.1) n).isSome) ∧
    (∀ position n, (fs n).isSome → (((validate_file V sd fs sha position).2.1) n).isSome) ∧
    (∀ n, (fs n).isSome → (((validate V sd fs sha).2.1) n).isSome) := by
  refine ⟨fun p rp n h => downloader_preserves V sd net fs p rp n h,
          fun p n h => download_file_preserves V sd net fs p n h,
          fun n h => downloadLoop_preserves V sd net (List.range sd.urls.length) fs n h,
          fun p n h => ?_, fun n h => ?_⟩
  · rw [validate_file_fs_eq]
    exact h
  · rw [show (validate V sd fs sha).2.1 = fs from
      validateLoop_fs_eq V sd sha (List.range sd.urls.length) fs]
    exact h

/-- C8 (witness): the file `f` survives each of the five operations at a
concrete configuration. -/
theorem downloader_core_never_deletes_witness :
    (((downloader V1 sdA netA fsC 0 none).2.1) "f").isSome ∧
    (((download_file V1 sdA netA fsC 0).2.1) "f").isSome ∧
    (((download V1 sdA netA fsC).2.1) "f").isSome ∧
    (((validate_file V1 sdA fsC shaW 0).2.1) "f").isSome ∧
    (((validate V1 sdA fsC shaW).2.1) "f").isSome := by
  have h := downloader_core_never_deletes V1 sdA netA fsC shaW
  exact ⟨h.1 0 none "f" (by decide), h.2.1 0 "f" (by decide), h.2.2.1 "f" (by decide),
         h.2.2.2.1 0 "f" (by decide), h.2.2.2.2 "f" (by decide)⟩

/-- C9: on a connection-level failure `safe_get_request` returns the
caller-specified `return_on_failure` sentinel instead of raising, emitting
the warning message exactly when the verbosity level meets the warning
threshold (and the raw error gated by its own threshold); on success the
response is returned unchanged with no warning. -/
theorem safe_get_request_sentinel_and_gating {ρ α : Type} (e warning_msg : String)
    (return_on_failure : α) (verbose_level warning_thr raw_err_thr : Int) (r : ρ) :
    safe_get_request (GetOutcome.connError e : GetOutcome ρ) verbose_level warning_msg
        return_on_failure warning_thr raw_err_thr =
      (Sum.inr return_on_failure,
       warn_if verbose_level warning_thr warning_msg ++
         warn_if verbose_level raw_err_thr e) ∧
    warn_if verbose_level warning_thr warning_msg =
      (if warning_thr ≤ verbose_level then [warning_msg] else []) ∧
    safe_get_request (GetOutcome.ok r) verbose_level warning_msg return_on_failure
        warning_thr raw_err_thr = (Sum.inl r, []) := by
  refine ⟨rfl, ?_, rfl⟩
  simp [warn_if, ge_iff_le]

/-- C10: with an expected hash present but no destination file on disk,
`validate_file` raises an uncaught file-not-found error while opening the
file for hashing — validating before downloading is not guarded. -/
theorem validate_file_missing_file_raises (V : Verbose) (sd : SafeDownloader) (fs : FS)
    (sha : List Nat → String) (position : Nat) (hash : String)
    (hhash : sd.url_hashes[position]? = some hash)
    (hfile : fs (sd.file_names.getD position "") = none) :
    validate_file V sd fs sha position = ([], fs, Except.error Err.fileNotFoundError) := by
  simp only [validate_file, hhash, hfile]

/-- C10 (witness): validating the hashed item of `sdH` on an empty
filesystem raises the file-not-found error. -/
theorem validate_file_missing_file_raises_witness :
    validate_file V1 sdH fsEmpty shaW 0 = ([], fsEmpty, Except.error Err.fileNotFoundError) :=
  validate_file_missing_file_raises V1 sdH fsEmpty shaW 0 "h" rfl rfl
